import Mathlib

/-!
Verification of the 1D Blandford–McKee (BMK) analytic blast-wave generator
in `src/examples/bmk_oned.py`.

The Python program is shallowly embedded over exact real arithmetic:

* Python floats are modelled as real numbers (`ℝ`);
* the float power operator `x ** y` is modelled by `Real.rpow`
  (written `x ^ (y : ℝ)`); for the one place where the source can leave
  the real domain (`calc_shock_lorentz_gamma` with `k ≥ 17/4`, where the
  radicand of `** 0.5` is negative and Python silently produces a complex
  number via the principal branch) a complex-valued model
  `calc_shock_lorentz_gammaPy` mirroring Python's complex power is also
  given; the two agree on the physical domain
  (`calc_shock_lorentz_gammaPy_ofReal`);
* numpy arrays are modelled as `List ℝ`; the elementwise masked
  assignment `a[smask] = f(chi[smask])` of the source is modelled by
  `masked_update`;
* `np.where(chi < 1.0)[0][0]`, which raises an uncaught `IndexError`
  when no entry is below one, is modelled by an `Option`-valued
  first-index search `upstream_lookup`, and the loop body by the
  `Except`-valued function `step`.
-/

set_option maxRecDepth 10000

namespace BMK

/-! ### ShockKinematics: the pure formulas (source lines 19–48) -/

/-- Source `calc_shock_lorentz_gamma(l, t, k)`:
`((17.0 - 4.0 * k) / 8.0 / np.pi)**0.5 * (l / t)**(3.0 / 2.0)`. -/
noncomputable def calc_shock_lorentz_gamma (l t k : ℝ) : ℝ :=
  ((17 - 4 * k) / 8 / Real.pi) ^ ((0.5 : ℝ)) * (l / t) ^ ((3 : ℝ) / 2)

/-- Complex-valued model of the same source expression, capturing Python's
semantics of `x ** 0.5` for a negative float `x` (a principal-branch complex
power, returned silently; no exception is raised). -/
noncomputable def calc_shock_lorentz_gammaPy (l t k : ℝ) : ℂ :=
  Complex.ofReal ((17 - 4 * k) / 8 / Real.pi) ^ Complex.ofReal (0.5) *
    Complex.ofReal (l / t) ^ Complex.ofReal (3 / 2)

/-- Source `calc_fluid_gamma_max(l, t, k)`: `gamma_shock / 2.0**0.5`. -/
noncomputable def calc_fluid_gamma_max (l t k : ℝ) : ℝ :=
  calc_shock_lorentz_gamma l t k / (2 : ℝ) ^ ((0.5 : ℝ))

/-- Source `calc_chi(l, r, t, m, k)`:
`(1.0 + 2.0 * (m + 1) * gamma_shock**2) * (1.0 - r / t)`. -/
noncomputable def calc_chi (l r t m k : ℝ) : ℝ :=
  (1 + 2 * (m + 1) * calc_shock_lorentz_gamma l t k ^ 2) * (1 - r / t)

/-- Source `calc_gamma_fluid(gamma_shock, chi)`: `gamma_shock / (2.0 * chi)**0.5`. -/
noncomputable def calc_gamma_fluid (gamma_shock chi : ℝ) : ℝ :=
  gamma_shock / (2 * chi) ^ ((0.5 : ℝ))

/-- Source `calc_rho(gamma_shock, chi, rho0, k)`:
`2.0 * rho0 * gamma_shock**2 * chi**(-(7.0 - 2.0*k)/(4.0 - k)) / gamma_fluid`. -/
noncomputable def calc_rho (gamma_shock chi rho0 k : ℝ) : ℝ :=
  2 * rho0 * gamma_shock ^ 2 * chi ^ (-(7 - 2 * k) / (4 - k)) /
    calc_gamma_fluid gamma_shock chi

/-- Source `calc_pressure(gamma_shock, chi, rho0, k)`:
`(2.0/3.0) * rho0 * gamma_shock**2 * chi**(-(17.0 - 4.0*k)/(12.0 - 3.0*k))`. -/
noncomputable def calc_pressure (gamma_shock chi rho0 k : ℝ) : ℝ :=
  (2 / 3) * rho0 * gamma_shock ^ 2 * chi ^ (-(17 - 4 * k) / (12 - 3 * k))

/-- Source `calc_shock_radius(gamma_shock, t, m)`:
`t * (1.0 - (2.0*(m + 1.0) * gamma_shock**2)**(-1))`. -/
noncomputable def calc_shock_radius (gamma_shock t m : ℝ) : ℝ :=
  t * (1 - (2 * (m + 1) * gamma_shock ^ 2) ^ ((-1 : ℝ)))

/-- On the physical domain (`k < 17/4`, `0 ≤ l/t`) the Python expression stays
real: the complex model is the coercion of the real model. -/
lemma calc_shock_lorentz_gammaPy_ofReal (l t k : ℝ) (hk : k < 17 / 4)
    (hlt : 0 ≤ l / t) :
    calc_shock_lorentz_gammaPy l t k =
      Complex.ofReal (calc_shock_lorentz_gamma l t k) := by
  have hrad : (0 : ℝ) ≤ (17 - 4 * k) / 8 / Real.pi := by
    have hπ : (0 : ℝ) < Real.pi := Real.pi_pos
    have h0 : (0 : ℝ) ≤ 17 - 4 * k := by linarith
    positivity
  unfold calc_shock_lorentz_gammaPy calc_shock_lorentz_gamma
  rw [← Complex.ofReal_cpow hrad, ← Complex.ofReal_cpow hlt, ← Complex.ofReal_mul]

/-! ### C5 helpers: behaviour of `calc_shock_lorentz_gamma` outside `k < 17/4` -/

/-- For `k` strictly beyond the domain boundary the radicand of `** 0.5`
is negative. -/
lemma radicand_neg {k : ℝ} (hk : 17 / 4 < k) :
    (17 - 4 * k) / 8 / Real.pi < 0 := by
  have hπ : (0 : ℝ) < Real.pi := Real.pi_pos
  have h8 : (17 - 4 * k) / 8 < 0 := by linarith
  exact div_neg_of_neg_of_pos h8 hπ

/-- Out-of-domain behaviour of the source function: for `k > 17/4` (and
`l, t > 0`) the Python call returns a complex number with strictly positive
imaginary part.  No check is performed and no exception is raised — the
function body is a single arithmetic expression. -/
lemma gammaPy_im_pos {l t k : ℝ} (hl : 0 < l) (ht : 0 < t) (hk : 17 / 4 < k) :
    0 < (calc_shock_lorentz_gammaPy l t k).im := by
  have hπ : (0 : ℝ) < Real.pi := Real.pi_pos
  have hc : (17 - 4 * k) / 8 / Real.pi < 0 := radicand_neg hk
  have hcne : Complex.ofReal ((17 - 4 * k) / 8 / Real.pi) ≠ 0 :=
    Complex.ofReal_ne_zero.2 (ne_of_lt hc)
  have hlt : 0 < l / t := div_pos hl ht
  unfold calc_shock_lorentz_gammaPy
  rw [← Complex.ofReal_cpow (le_of_lt hlt), Complex.cpow_def_of_ne_zero hcne,
    Complex.mul_im, Complex.ofReal_im, Complex.ofReal_re, mul_zero, zero_add,
    Complex.exp_im]
  have hzim : ((Complex.log (Complex.ofReal ((17 - 4 * k) / 8 / Real.pi)) *
      Complex.ofReal (0.5)).im) = Real.pi * (0.5 : ℝ) := by
    rw [Complex.mul_im, Complex.ofReal_im, Complex.ofReal_re, mul_zero, zero_add,
      Complex.log_im, Complex.arg_ofReal_of_neg hc]
  rw [hzim, show Real.pi * (0.5 : ℝ) = Real.pi / 2 by ring, Real.sin_pi_div_two,
    mul_one]
  exact mul_pos (Real.exp_pos _) (Real.rpow_pos_of_pos hlt _)

/-! ### Claim C5 -/

/-- C5 counterexample: the claim says a call of `calc_shock_lorentz_gamma`
with `k ≥ 17/4` "fails with a DomainError".  In the source the function body
is one unguarded arithmetic expression: at `l = 1, t = 1, k = 5` it silently
returns a well-defined complex number with nonzero imaginary part — nothing
is detected or reported. -/
theorem C5_cex_no_domain_error_at_k5 :
    (calc_shock_lorentz_gammaPy 1 1 5).im ≠ 0 :=
  ne_of_gt (gammaPy_im_pos one_pos one_pos (by norm_num))

/-- C5 (amended): `calc_shock_lorentz_gamma` performs no domain validation.
Its real result is meaningful only for `k < 17/4`; for `k > 17/4` (with
`ℓ, t > 0`) the radicand of `** 0.5` is negative and the Python call
silently returns a non-real complex value (positive imaginary part) instead
of failing with a DomainError. -/
theorem C5_no_domain_check (l t k : ℝ) (hl : 0 < l) (ht : 0 < t)
    (hk : 17 / 4 < k) : 0 < (calc_shock_lorentz_gammaPy l t k).im :=
  gammaPy_im_pos hl ht hk

/-- C5 witness: the amended statement instantiated at `l = 1, t = 1, k = 5`. -/
theorem C5_no_domain_check_witness :
    (0 : ℝ) < 1 ∧ (17 : ℝ) / 4 < 5 ∧ 0 < (calc_shock_lorentz_gammaPy 1 1 5).im :=
  ⟨one_pos, by norm_num, C5_no_domain_check 1 1 5 one_pos one_pos (by norm_num)⟩

/-! ### Claim C7 -/

/-- C7: the similarity variable `chi` is non-increasing in the radius at
fixed time, for `ℓ > 0`, `t > 0`, `m > −1`, `k < 17/4`: the prefactor
`1 + 2(m+1)Γ_sh²` is nonnegative and `1 − r/t` is non-increasing in `r`. -/
theorem C7_chi_antitone_in_r (l t m k r1 r2 : ℝ) (hl : 0 < l) (ht : 0 < t)
    (hm : -1 < m) (hk : k < 17 / 4) (hr : r1 ≤ r2) :
    calc_chi l r2 t m k ≤ calc_chi l r1 t m k := by
  unfold calc_chi
  have hA : 0 ≤ 1 + 2 * (m + 1) * calc_shock_lorentz_gamma l t k ^ 2 := by
    have hsq := sq_nonneg (calc_shock_lorentz_gamma l t k)
    nlinarith
  have hdiv : r1 / t ≤ r2 / t := by gcongr
  have hfac : 1 - r2 / t ≤ 1 - r1 / t := by linarith
  exact mul_le_mul_of_nonneg_left hfac hA

/-- C7 witness: instantiated at `ℓ = 1, t = 1, m = 3, k = 0, r1 = 0, r2 = 1`. -/
theorem C7_chi_antitone_in_r_witness :
    (0 : ℝ) < 1 ∧ (-1 : ℝ) < 3 ∧ (0 : ℝ) < 17 / 4 ∧ (0 : ℝ) ≤ 1 ∧
      calc_chi 1 1 1 3 0 ≤ calc_chi 1 0 1 3 0 :=
  ⟨one_pos, by norm_num, by norm_num, zero_le_one,
    C7_chi_antitone_in_r 1 1 3 0 0 1 one_pos one_pos (by norm_num) (by norm_num)
      zero_le_one⟩

/-! ### Claim C8 -/

/-- C8: at the shock front (`χ = 1`) the local fluid Lorentz factor equals
`Γ_sh / √2` exactly, and `calc_fluid_gamma_max` coincides with
`calc_gamma_fluid` evaluated at the front. -/
theorem C8_fluid_gamma_boundary :
    (∀ gamma_shock : ℝ, calc_gamma_fluid gamma_shock 1 = gamma_shock / Real.sqrt 2) ∧
    (∀ l t k : ℝ, calc_fluid_gamma_max l t k =
      calc_gamma_fluid (calc_shock_lorentz_gamma l t k) 1) := by
  constructor
  · intro gamma_shock
    unfold calc_gamma_fluid
    rw [mul_one, Real.sqrt_eq_rpow]
    norm_num
  · intro l t k
    unfold calc_fluid_gamma_max calc_gamma_fluid
    rw [mul_one]



/-! ### Containers: grid, nearest-index lookup, masked assignment -/

/-- Model of `np.geomspace(a, b, n)` for positive endpoints: the `i`-th point
is `a * (b/a) ^ (i/(n-1))`.  For `n = 1` numpy returns `[a]`, which the
formula reproduces since `(0 : ℝ)/0 = 0` and `x ^ (0 : ℝ) = 1`. -/
noncomputable def geomspace (a b : ℝ) (n : ℕ) : List ℝ :=
  (List.range n).map (fun i : ℕ => a * (b / a) ^ ((i : ℝ) / ((n : ℝ) - 1)))

/-- Model of `find_nearest(arr, val)[0]`, i.e. `np.argmin(np.abs(arr - val))`:
ties resolve to the first (lowest) index, hence the strict comparison. -/
noncomputable def find_nearest_idx (arr : List ℝ) (val : ℝ) : ℕ :=
  (List.range arr.length).foldl
    (fun best j => if |arr.getD j 0 - val| < |arr.getD best 0 - val| then j else best) 0

/-- Model of `np.where(chi < 1.0)[0][0]` as an `Option`: the first index whose
entry is `< 1`, or `none` when no such entry exists (where numpy raises an
uncaught `IndexError`). -/
noncomputable def upstream_lookup : List ℝ → Option ℕ
  | [] => none
  | c :: cs => if c < 1 then some 0 else (upstream_lookup cs).map (· + 1)

/-- Model of the numpy masked assignment
`vals[smask] = f(chi[smask])` with `smask = (chi >= 1.0) & (chi <= chi_critical)`:
elementwise, an entry is replaced by `f chi_i` exactly when
`1 ≤ chi_i ∧ chi_i ≤ chi_critical` and kept otherwise. -/
noncomputable def masked_update (f : ℝ → ℝ) (chi_critical : ℝ) :
    List ℝ → List ℝ → List ℝ
  | c :: cs, x :: xs =>
      (if 1 ≤ c ∧ c ≤ chi_critical then f c else x) ::
        masked_update f chi_critical cs xs
  | _, _ => []

/-! ### The program state (source `main`, lines 50–169) -/

/-- The command-line inputs consumed by the core (argparse defaults:
`e0=1, rho0=1, t0=0.01, nzones=4096, rmax=1, bmk_m=3, k=0, tinterval=0.1`). -/
structure Params where
  e0 : ℝ
  rho0 : ℝ
  t0 : ℝ
  nzones : ℕ
  rmax : ℝ
  bmk_m : ℝ
  k : ℝ
  tinterval : ℝ

/-- The loop-invariant data computed before the loop starts: physical
parameters, the fixed radial grid `r`, the fixed step `dt` and the
termination time `tphysical`. -/
structure Cfg where
  e0 : ℝ
  rho0 : ℝ
  k : ℝ
  bmk_m : ℝ
  tinterval : ℝ
  tphysical : ℝ
  r : List ℝ
  dt : ℝ

/-- The mutable state of the evolution loop: current time `t`, length scale
`ell`, the three FluidState arrays, the shock grid index, the checkpoint
boundary `interval` and counter `i`, and the `(t, ℓ)` history lists. -/
structure LoopState where
  t : ℝ
  ell : ℝ
  rho : List ℝ
  gamma_fluid : List ℝ
  pressure : List ℝ
  rshock_idx : ℕ
  interval : ℝ
  i : ℕ
  times : List ℝ
  ells : List ℝ

/-- Source line 86: `ell = (e0/rho0)**(1/3)`. -/
noncomputable def ell0_of (p : Params) : ℝ := (p.e0 / p.rho0) ^ ((1 : ℝ) / 3)

/-- Source line 94: `gamma_shock0 = calc_shock_lorentz_gamma(ell, t, args.k)`. -/
noncomputable def gamma_shock0_of (p : Params) : ℝ :=
  calc_shock_lorentz_gamma (ell0_of p) p.t0 p.k

/-- Source line 98: `r0 = calc_shock_radius(gamma_shock0, t, args.bmk_m)`. -/
noncomputable def r0_of (p : Params) : ℝ :=
  calc_shock_radius (gamma_shock0_of p) p.t0 p.bmk_m

/-- Pre-loop setup (source lines 83–116): length scale, termination time
`tphysical = ((17-4k)/(8π))^(1/3) * (e0/rho0)^(1/3)`, initial shock radius
`r0`, geometric grid, and `dt = (rmax - r0)/nzones`. -/
noncomputable def mkCfg (p : Params) : Cfg :=
  { e0 := p.e0, rho0 := p.rho0, k := p.k, bmk_m := p.bmk_m,
    tinterval := p.tinterval,
    tphysical := ((17 - 4 * p.k) / (8 * Real.pi)) ^ ((1 : ℝ) / 3) *
      (p.e0 / p.rho0) ^ ((1 : ℝ) / 3),
    r := geomspace (r0_of p) p.rmax p.nzones,
    dt := (p.rmax - r0_of p) / (p.nzones : ℝ) }

/-- Initial state (source lines 87, 101–118): ambient
`rho = rho0 * (r/r0)^(-k)`, `pressure = rho * 1e-6`, `gamma_fluid = 1`
except `gamma_fluid[0] = gamma_shock0 / 2**0.5`; `interval = 0`, `i = 0`,
shock index nearest `r0`. -/
noncomputable def initState (p : Params) : LoopState :=
  { t := p.t0, ell := ell0_of p,
    rho := (geomspace (r0_of p) p.rmax p.nzones).map
      (fun x => p.rho0 * (x / r0_of p) ^ (-p.k)),
    gamma_fluid := (List.replicate p.nzones (1 : ℝ)).set 0
      (gamma_shock0_of p / (2 : ℝ) ^ ((0.5 : ℝ))),
    pressure := ((geomspace (r0_of p) p.rmax p.nzones).map
      (fun x => p.rho0 * (x / r0_of p) ^ (-p.k))).map (fun x => x * 1e-6),
    rshock_idx := find_nearest_idx (geomspace (r0_of p) p.rmax p.nzones) (r0_of p),
    interval := 0,
    i := 0, times := [], ells := [] }

/-- The per-step similarity profile (source lines 125–129): `calc_chi` mapped
over the grid, then the boundary correction `chi[rshock_idx] = 1.0`. -/
noncomputable def chi_array (cfg : Cfg) (s : LoopState) : List ℝ :=
  (cfg.r.map (fun ri => calc_chi s.ell ri s.t cfg.bmk_m cfg.k)).set s.rshock_idx 1

/-- The one failure mode of the loop body: `np.where(chi < 1.0)[0][0]` on an
array with no entry below one raises `IndexError` (source line 166). -/
inductive StepErr where
  | indexError
deriving DecidableEq

/-- One iteration of the evolution loop (source lines 120–169): compute
`gamma_shock` and `chi`, overwrite the masked region of the three fluid
arrays, take the checkpoint branch when `t >= interval`, record history,
advance `t`, look up the upstream index (may fail), update `ell` from the
post-update density there, and relocate the shock index. -/
noncomputable def step (cfg : Cfg) (s : LoopState) : Except StepErr LoopState :=
  let gamma_shock := calc_shock_lorentz_gamma s.ell s.t cfg.k
  let chi_critical := gamma_shock ^ 2 / 2
  let chi := chi_array cfg s
  let rho' := masked_update (fun c => calc_rho gamma_shock c cfg.rho0 cfg.k)
    chi_critical chi s.rho
  let gamma' := masked_update (fun c => calc_gamma_fluid gamma_shock c)
    chi_critical chi s.gamma_fluid
  let pressure' := masked_update (fun c => calc_pressure gamma_shock c cfg.rho0 cfg.k)
    chi_critical chi s.pressure
  let interval' := if s.interval ≤ s.t then s.interval + cfg.tinterval else s.interval
  let i' := if s.interval ≤ s.t then s.i + 1 else s.i
  let t' := s.t + cfg.dt
  match upstream_lookup chi with
  | none => .error .indexError
  | some u =>
    .ok { t := t',
          ell := (cfg.e0 / rho'.getD u 0) ^ ((1 : ℝ) / 3),
          rho := rho', gamma_fluid := gamma', pressure := pressure',
          rshock_idx := find_nearest_idx cfg.r
            (calc_shock_radius gamma_shock t' cfg.bmk_m),
          interval := interval', i := i',
          times := s.times ++ [s.t], ells := s.ells ++ [s.ell] }

/-- The `while t < tphysical` loop, with enough fuel; fuel exhaustion
returns the current state (the main theorems show the guard fails before
the provided fuel runs out, so this case is never the exit actually used). -/
noncomputable def loopRun (cfg : Cfg) : ℕ → LoopState → Except StepErr LoopState
  | 0, s => .ok s
  | n + 1, s =>
      if s.t < cfg.tphysical then (step cfg s).bind (loopRun cfg n) else .ok s

/-- The whole program run on parameters `p` (fuel `nzones` suffices: the
loop advances `t` by `(rmax-r0)/nzones` each step and `t` exceeds
`tphysical` after at most `nzones` steps for the configurations studied). -/
noncomputable def runMain (p : Params) : Except StepErr LoopState :=
  loopRun (mkCfg p) p.nzones (initState p)

/-! ### Helper lemmas about the containers -/

lemma upstream_lookup_eq_none_iff (l : List ℝ) :
    upstream_lookup l = none ↔ ∀ c ∈ l, 1 ≤ c := by
  induction l with
  | nil => simp [upstream_lookup]
  | cons c cs ih =>
    simp only [upstream_lookup]
    by_cases hc : c < 1
    · simp only [if_pos hc]
      constructor
      · intro h; cases h
      · intro h; exfalso; linarith [h c (by simp)]
    · simp only [if_neg hc, Option.map_eq_none', ih]
      constructor
      · intro h d hd
        rcases List.mem_cons.mp hd with rfl | hmem
        · exact le_of_not_lt hc
        · exact h d hmem
      · intro h d hd
        exact h d (List.mem_cons_of_mem _ hd)

lemma masked_update_length (f : ℝ → ℝ) (cc : ℝ) :
    ∀ chi xs : List ℝ, (masked_update f cc chi xs).length = min chi.length xs.length := by
  intro chi
  induction chi with
  | nil => intro xs; simp [masked_update]
  | cons c cs ih =>
    intro xs
    cases xs with
    | nil => simp [masked_update]
    | cons x xs' => simp [masked_update, ih xs', Nat.succ_min_succ]

lemma masked_update_getD (f : ℝ → ℝ) (cc : ℝ) :
    ∀ (chi xs : List ℝ) (i : ℕ), i < chi.length → i < xs.length →
      (masked_update f cc chi xs).getD i 0 =
        if 1 ≤ chi.getD i 0 ∧ chi.getD i 0 ≤ cc then f (chi.getD i 0)
        else xs.getD i 0 := by
  intro chi
  induction chi with
  | nil => intro xs i hi; simp at hi
  | cons c cs ih =>
    intro xs i hi hx
    cases xs with
    | nil => simp at hx
    | cons x xs' =>
      cases i with
      | zero => simp [masked_update]
      | succ j =>
        simp only [masked_update, List.getD_cons_succ]
        exact ih xs' j (by simpa using hi) (by simpa using hx)

lemma masked_update_of_crit_lt_one (f : ℝ → ℝ) (cc : ℝ) (hcc : cc < 1) :
    ∀ chi xs : List ℝ, chi.length = xs.length →
      masked_update f cc chi xs = xs := by
  intro chi
  induction chi with
  | nil => intro xs h; cases xs with
    | nil => rfl
    | cons _ _ => simp at h
  | cons c cs ih =>
    intro xs h
    cases xs with
    | nil => simp at h
    | cons x xs' =>
      have hmask : ¬(1 ≤ c ∧ c ≤ cc) := by
        rintro ⟨h1, h2⟩; linarith
      simp [masked_update, hmask, ih xs' (by simpa using h)]

lemma chi_array_length (cfg : Cfg) (s : LoopState) :
    (chi_array cfg s).length = cfg.r.length := by
  simp [chi_array]

/-! ### Step characterization lemmas -/

/-- Failure case: an exhausted upstream lookup makes the step raise. -/
lemma step_eq_error (cfg : Cfg) (s : LoopState)
    (h : upstream_lookup (chi_array cfg s) = none) :
    step cfg s = .error .indexError := by
  simp [step, h]

/-- A successful step, field by field. -/
lemma step_ok_fields (cfg : Cfg) (s s' : LoopState)
    (h : step cfg s = .ok s') :
    s'.rho = masked_update
        (fun c => calc_rho (calc_shock_lorentz_gamma s.ell s.t cfg.k) c cfg.rho0 cfg.k)
        ((calc_shock_lorentz_gamma s.ell s.t cfg.k) ^ 2 / 2) (chi_array cfg s) s.rho ∧
    s'.gamma_fluid = masked_update
        (fun c => calc_gamma_fluid (calc_shock_lorentz_gamma s.ell s.t cfg.k) c)
        ((calc_shock_lorentz_gamma s.ell s.t cfg.k) ^ 2 / 2) (chi_array cfg s) s.gamma_fluid ∧
    s'.pressure = masked_update
        (fun c => calc_pressure (calc_shock_lorentz_gamma s.ell s.t cfg.k) c cfg.rho0 cfg.k)
        ((calc_shock_lorentz_gamma s.ell s.t cfg.k) ^ 2 / 2) (chi_array cfg s) s.pressure ∧
    s'.t = s.t + cfg.dt ∧
    s'.i = (if s.interval ≤ s.t then s.i + 1 else s.i) ∧
    s'.interval = (if s.interval ≤ s.t then s.interval + cfg.tinterval else s.interval) ∧
    s'.times = s.times ++ [s.t] ∧
    s'.ells = s.ells ++ [s.ell] := by
  cases hu : upstream_lookup (chi_array cfg s) with
  | none => simp [step, hu] at h
  | some u =>
    simp only [step, hu] at h
    cases h
    simp


/-- Pointwise effect of a successful step on the three fluid arrays. -/
lemma step_getD_char (cfg : Cfg) (s : LoopState)
    (hρ : s.rho.length = cfg.r.length)
    (hγ : s.gamma_fluid.length = cfg.r.length)
    (hp : s.pressure.length = cfg.r.length)
    (i : ℕ) (hi : i < cfg.r.length) :
    ∀ s', step cfg s = .ok s' →
      s'.rho.getD i 0 = (if 1 ≤ (chi_array cfg s).getD i 0 ∧
          (chi_array cfg s).getD i 0 ≤ calc_shock_lorentz_gamma s.ell s.t cfg.k ^ 2 / 2
        then calc_rho (calc_shock_lorentz_gamma s.ell s.t cfg.k)
          ((chi_array cfg s).getD i 0) cfg.rho0 cfg.k
        else s.rho.getD i 0) ∧
      s'.gamma_fluid.getD i 0 = (if 1 ≤ (chi_array cfg s).getD i 0 ∧
          (chi_array cfg s).getD i 0 ≤ calc_shock_lorentz_gamma s.ell s.t cfg.k ^ 2 / 2
        then calc_gamma_fluid (calc_shock_lorentz_gamma s.ell s.t cfg.k)
          ((chi_array cfg s).getD i 0)
        else s.gamma_fluid.getD i 0) ∧
      s'.pressure.getD i 0 = (if 1 ≤ (chi_array cfg s).getD i 0 ∧
          (chi_array cfg s).getD i 0 ≤ calc_shock_lorentz_gamma s.ell s.t cfg.k ^ 2 / 2
        then calc_pressure (calc_shock_lorentz_gamma s.ell s.t cfg.k)
          ((chi_array cfg s).getD i 0) cfg.rho0 cfg.k
        else s.pressure.getD i 0) := by
  intro s' h
  obtain ⟨hrho, hgam, hpre, -, -, -, -, -⟩ := step_ok_fields cfg s s' h
  have hchi : i < (chi_array cfg s).length := by
    rw [chi_array_length]; exact hi
  refine ⟨?_, ?_, ?_⟩
  · rw [hrho, masked_update_getD _ _ _ _ i hchi (by rw [hρ]; exact hi)]
  · rw [hgam, masked_update_getD _ _ _ _ i hchi (by rw [hγ]; exact hi)]
  · rw [hpre, masked_update_getD _ _ _ _ i hchi (by rw [hp]; exact hi)]

/-! ### Concrete instances used by the witnesses -/

/-- A one-zone configuration on which the (forced) similarity profile is
entirely `≥ 1`, so the upstream lookup is exhausted. -/
noncomputable def cfgA : Cfg :=
  { e0 := 1, rho0 := 1, k := 0, bmk_m := 3, tinterval := 1, tphysical := 2,
    r := [2], dt := 1 }

/-- State paired with `cfgA`: the boundary correction rewrites the single
`chi` entry to `1`, which defeats the `chi < 1` search. -/
noncomputable def stA : LoopState :=
  { t := 1, ell := 1, rho := [1], gamma_fluid := [1], pressure := [1],
    rshock_idx := 0, interval := 0, i := 0, times := [], ells := [] }

lemma chi_array_cfgA : chi_array cfgA stA = [1] := by
  simp [chi_array, cfgA, stA]

lemma upstream_lookup_cfgA : upstream_lookup (chi_array cfgA stA) = none := by
  rw [chi_array_cfgA]
  simp [upstream_lookup]

/-- A two-zone configuration on which the step succeeds (second `chi` entry
is negative, hence below one). -/
noncomputable def cfgB : Cfg :=
  { e0 := 1, rho0 := 1, k := 0, bmk_m := 3, tinterval := 1, tphysical := 2,
    r := [1, 2], dt := 1 }

/-- State paired with `cfgB`. -/
noncomputable def stB : LoopState :=
  { t := 1, ell := 1, rho := [5, 6], gamma_fluid := [7, 8], pressure := [9, 10],
    rshock_idx := 0, interval := 0, i := 0, times := [], ells := [] }

/-- The shock Lorentz factor of `stB`/`cfgB`, squared: `17/(8π)`. -/
lemma gamma_sq_unit : calc_shock_lorentz_gamma 1 1 0 ^ 2 = 17 / 8 / Real.pi := by
  have hx : (0 : ℝ) ≤ 17 / 8 / Real.pi := by positivity
  unfold calc_shock_lorentz_gamma
  norm_num
  rw [← Real.sqrt_eq_rpow, Real.sq_sqrt hx]

/-! ### Claim C1 -/

/-- C1 (amended): when the per-step upstream lookup finds no grid point with
`χ < 1`, the step — and with it the whole loop — aborts with an uncaught
`IndexError`.  The loop does stop, but not gracefully: the final FluidState
is not yielded (nothing after the raise executes). -/
theorem C1_grid_exhaustion_aborts (cfg : Cfg) (s : LoopState)
    (h : upstream_lookup (chi_array cfg s) = none) :
    step cfg s = .error .indexError ∧
      ∀ n : ℕ, s.t < cfg.tphysical →
        loopRun cfg (n + 1) s = .error .indexError := by
  refine ⟨step_eq_error cfg s h, ?_⟩
  intro n hguard
  simp [loopRun, hguard, step_eq_error cfg s h, Except.bind]

/-- C1 witness: on the one-zone instance the lookup is exhausted and the run
aborts. -/
theorem C1_grid_exhaustion_aborts_witness :
    upstream_lookup (chi_array cfgA stA) = none ∧
      step cfgA stA = .error .indexError ∧
      ∀ n : ℕ, stA.t < cfgA.tphysical →
        loopRun cfgA (n + 1) stA = .error .indexError :=
  ⟨upstream_lookup_cfgA,
    (C1_grid_exhaustion_aborts cfgA stA upstream_lookup_cfgA).1,
    (C1_grid_exhaustion_aborts cfgA stA upstream_lookup_cfgA).2⟩

/-! ### Claim C3 -/

/-- C3: in every (successful) step, exactly the grid points with
`1 ≤ χ[i] ≤ χ_critical` — where `χ` already carries the boundary correction
`χ[rshock_idx] = 1` — have their density, Lorentz factor and pressure
overwritten with `calc_rho`, `calc_gamma_fluid`, `calc_pressure` at the
current `Γ_sh`; every other point keeps its previous value. -/
theorem C3_mask_exactness (cfg : Cfg) (s : LoopState)
    (hρ : s.rho.length = cfg.r.length)
    (hγ : s.gamma_fluid.length = cfg.r.length)
    (hp : s.pressure.length = cfg.r.length)
    (i : ℕ) (hi : i < cfg.r.length) :
    ∀ s', step cfg s = .ok s' →
      s'.rho.getD i 0 = (if 1 ≤ (chi_array cfg s).getD i 0 ∧
          (chi_array cfg s).getD i 0 ≤ calc_shock_lorentz_gamma s.ell s.t cfg.k ^ 2 / 2
        then calc_rho (calc_shock_lorentz_gamma s.ell s.t cfg.k)
          ((chi_array cfg s).getD i 0) cfg.rho0 cfg.k
        else s.rho.getD i 0) ∧
      s'.gamma_fluid.getD i 0 = (if 1 ≤ (chi_array cfg s).getD i 0 ∧
          (chi_array cfg s).getD i 0 ≤ calc_shock_lorentz_gamma s.ell s.t cfg.k ^ 2 / 2
        then calc_gamma_fluid (calc_shock_lorentz_gamma s.ell s.t cfg.k)
          ((chi_array cfg s).getD i 0)
        else s.gamma_fluid.getD i 0) ∧
      s'.pressure.getD i 0 = (if 1 ≤ (chi_array cfg s).getD i 0 ∧
          (chi_array cfg s).getD i 0 ≤ calc_shock_lorentz_gamma s.ell s.t cfg.k ^ 2 / 2
        then calc_pressure (calc_shock_lorentz_gamma s.ell s.t cfg.k)
          ((chi_array cfg s).getD i 0) cfg.rho0 cfg.k
        else s.pressure.getD i 0) :=
  step_getD_char cfg s hρ hγ hp i hi

/-- C3 witness: instantiated on the two-zone instance at grid point 0. -/
theorem C3_mask_exactness_witness :
    stB.rho.length = cfgB.r.length ∧
      stB.gamma_fluid.length = cfgB.r.length ∧
      stB.pressure.length = cfgB.r.length ∧
      0 < cfgB.r.length ∧
      (∀ s', step cfgB stB = .ok s' →
        s'.rho.getD 0 0 = (if 1 ≤ (chi_array cfgB stB).getD 0 0 ∧
            (chi_array cfgB stB).getD 0 0 ≤
              calc_shock_lorentz_gamma stB.ell stB.t cfgB.k ^ 2 / 2
          then calc_rho (calc_shock_lorentz_gamma stB.ell stB.t cfgB.k)
            ((chi_array cfgB stB).getD 0 0) cfgB.rho0 cfgB.k
          else stB.rho.getD 0 0) ∧
        s'.gamma_fluid.getD 0 0 = (if 1 ≤ (chi_array cfgB stB).getD 0 0 ∧
            (chi_array cfgB stB).getD 0 0 ≤
              calc_shock_lorentz_gamma stB.ell stB.t cfgB.k ^ 2 / 2
          then calc_gamma_fluid (calc_shock_lorentz_gamma stB.ell stB.t cfgB.k)
            ((chi_array cfgB stB).getD 0 0)
          else stB.gamma_fluid.getD 0 0) ∧
        s'.pressure.getD 0 0 = (if 1 ≤ (chi_array cfgB stB).getD 0 0 ∧
            (chi_array cfgB stB).getD 0 0 ≤
              calc_shock_lorentz_gamma stB.ell stB.t cfgB.k ^ 2 / 2
          then calc_pressure (calc_shock_lorentz_gamma stB.ell stB.t cfgB.k)
            ((chi_array cfgB stB).getD 0 0) cfgB.rho0 cfgB.k
          else stB.pressure.getD 0 0)) :=
  ⟨by simp [stB, cfgB], by simp [stB, cfgB], by simp [stB, cfgB],
    by simp [cfgB],
    C3_mask_exactness cfgB stB (by simp [stB, cfgB]) (by simp [stB, cfgB])
      (by simp [stB, cfgB]) 0 (by simp [cfgB])⟩

/-! ### Claim C6 -/

/-- C6: per step, each grid point is either left unchanged (all three arrays)
or rewritten by the shocked-region formulas at the current `Γ_sh, χ[i]`.
These are the only writes in the loop, so once a point has been overwritten
it is never reset to the ambient initialization. -/
theorem C6_once_shocked_never_ambient (cfg : Cfg) (s : LoopState)
    (hρ : s.rho.length = cfg.r.length)
    (hγ : s.gamma_fluid.length = cfg.r.length)
    (hp : s.pressure.length = cfg.r.length)
    (i : ℕ) (hi : i < cfg.r.length) :
    ∀ s', step cfg s = .ok s' →
      (s'.rho.getD i 0 = s.rho.getD i 0 ∧
        s'.gamma_fluid.getD i 0 = s.gamma_fluid.getD i 0 ∧
        s'.pressure.getD i 0 = s.pressure.getD i 0) ∨
      (1 ≤ (chi_array cfg s).getD i 0 ∧
        (chi_array cfg s).getD i 0 ≤ calc_shock_lorentz_gamma s.ell s.t cfg.k ^ 2 / 2 ∧
        s'.rho.getD i 0 = calc_rho (calc_shock_lorentz_gamma s.ell s.t cfg.k)
          ((chi_array cfg s).getD i 0) cfg.rho0 cfg.k ∧
        s'.gamma_fluid.getD i 0 = calc_gamma_fluid
          (calc_shock_lorentz_gamma s.ell s.t cfg.k) ((chi_array cfg s).getD i 0) ∧
        s'.pressure.getD i 0 = calc_pressure (calc_shock_lorentz_gamma s.ell s.t cfg.k)
          ((chi_array cfg s).getD i 0) cfg.rho0 cfg.k) := by
  intro s' h
  obtain ⟨h1, h2, h3⟩ := step_getD_char cfg s hρ hγ hp i hi s' h
  by_cases hmask : 1 ≤ (chi_array cfg s).getD i 0 ∧
      (chi_array cfg s).getD i 0 ≤ calc_shock_lorentz_gamma s.ell s.t cfg.k ^ 2 / 2
  · right
    rw [if_pos hmask] at h1 h2 h3
    exact ⟨hmask.1, hmask.2, h1, h2, h3⟩
  · left
    rw [if_neg hmask] at h1 h2 h3
    exact ⟨h1, h2, h3⟩

/-- C6 witness: instantiated on the two-zone instance at grid point 1. -/
theorem C6_once_shocked_never_ambient_witness :
    stB.rho.length = cfgB.r.length ∧ 1 < cfgB.r.length ∧
      (∀ s', step cfgB stB = .ok s' →
        (s'.rho.getD 1 0 = stB.rho.getD 1 0 ∧
          s'.gamma_fluid.getD 1 0 = stB.gamma_fluid.getD 1 0 ∧
          s'.pressure.getD 1 0 = stB.pressure.getD 1 0) ∨
        (1 ≤ (chi_array cfgB stB).getD 1 0 ∧
          (chi_array cfgB stB).getD 1 0 ≤
            calc_shock_lorentz_gamma stB.ell stB.t cfgB.k ^ 2 / 2 ∧
          s'.rho.getD 1 0 = calc_rho (calc_shock_lorentz_gamma stB.ell stB.t cfgB.k)
            ((chi_array cfgB stB).getD 1 0) cfgB.rho0 cfgB.k ∧
          s'.gamma_fluid.getD 1 0 = calc_gamma_fluid
            (calc_shock_lorentz_gamma stB.ell stB.t cfgB.k)
            ((chi_array cfgB stB).getD 1 0) ∧
          s'.pressure.getD 1 0 = calc_pressure
            (calc_shock_lorentz_gamma stB.ell stB.t cfgB.k)
            ((chi_array cfgB stB).getD 1 0) cfgB.rho0 cfgB.k)) :=
  ⟨by simp [stB, cfgB], by simp [cfgB],
    C6_once_shocked_never_ambient cfgB stB (by simp [stB, cfgB])
      (by simp [stB, cfgB]) (by simp [stB, cfgB]) 1 (by simp [cfgB])⟩

/-! ### Claim C9 -/

/-- C9: if at a step `χ_critical = Γ_sh²/2 < 1`, the selection mask is empty
(the forced value `χ[rshock_idx] = 1` itself exceeds `χ_critical`), so the
step leaves every entry of the three fluid arrays unchanged — a silent no-op
on FluidState; nothing is detected or reported about the empty mask. -/
theorem C9_subcritical_mask_noop (cfg : Cfg) (s : LoopState)
    (hρ : s.rho.length = cfg.r.length)
    (hγ : s.gamma_fluid.length = cfg.r.length)
    (hp : s.pressure.length = cfg.r.length)
    (hcc : calc_shock_lorentz_gamma s.ell s.t cfg.k ^ 2 / 2 < 1) :
    ∀ s', step cfg s = .ok s' →
      s'.rho = s.rho ∧ s'.gamma_fluid = s.gamma_fluid ∧
        s'.pressure = s.pressure := by
  intro s' h
  obtain ⟨hrho, hgam, hpre, -, -, -, -, -⟩ := step_ok_fields cfg s s' h
  refine ⟨?_, ?_, ?_⟩
  · rw [hrho]
    exact masked_update_of_crit_lt_one _ _ hcc _ _ (by rw [chi_array_length, hρ])
  · rw [hgam]
    exact masked_update_of_crit_lt_one _ _ hcc _ _ (by rw [chi_array_length, hγ])
  · rw [hpre]
    exact masked_update_of_crit_lt_one _ _ hcc _ _ (by rw [chi_array_length, hp])

/-- C9 witness: on the two-zone instance `Γ_sh² = 17/(8π) < 2`, so
`χ_critical < 1` and the hypothesis is discharged concretely. -/
theorem C9_subcritical_mask_noop_witness :
    calc_shock_lorentz_gamma stB.ell stB.t cfgB.k ^ 2 / 2 < 1 ∧
      (∀ s', step cfgB stB = .ok s' →
        s'.rho = stB.rho ∧ s'.gamma_fluid = stB.gamma_fluid ∧
          s'.pressure = stB.pressure) := by
  have hcc : calc_shock_lorentz_gamma stB.ell stB.t cfgB.k ^ 2 / 2 < 1 := by
    show calc_shock_lorentz_gamma 1 1 0 ^ 2 / 2 < 1
    rw [gamma_sq_unit, div_div, div_div, div_lt_one (by positivity)]
    nlinarith [Real.pi_gt_three]
  exact ⟨hcc, C9_subcritical_mask_noop cfgB stB (by simp [stB, cfgB])
    (by simp [stB, cfgB]) (by simp [stB, cfgB]) hcc⟩

/-! ### Claim C10 -/

/-- C10: the checkpoint boundary is initialized to `0`, not to `t0`; hence
for any `t0 ≥ 0` the very first loop iteration takes the emission branch
(`t >= interval` holds at `t = t0`) and emits the checkpoint with index 0
(the counter moves from 0 to 1), regardless of `tinterval`. -/
theorem C10_first_step_emits (p : Params) (h0 : 0 ≤ p.t0) :
    (initState p).i = 0 ∧ (initState p).interval = 0 ∧
      (initState p).interval ≤ (initState p).t ∧
      ∀ s', step (mkCfg p) (initState p) = .ok s' → s'.i = 1 := by
  refine ⟨rfl, rfl, ?_, ?_⟩
  · show (0 : ℝ) ≤ p.t0
    exact h0
  · intro s' h
    obtain ⟨-, -, -, -, hi, -, -, -⟩ := step_ok_fields _ _ _ h
    rw [hi]
    have hle : (initState p).interval ≤ (initState p).t := h0
    rw [if_pos hle]
    rfl

/-- The argparse default parameters of the source. -/
noncomputable def p0 : Params :=
  { e0 := 1, rho0 := 1, t0 := 0.01, nzones := 4096, rmax := 1, bmk_m := 3,
    k := 0, tinterval := 0.1 }

/-- C10 witness: instantiated at the default parameters (`t0 = 0.01 ≥ 0`). -/
theorem C10_first_step_emits_witness :
    (0 : ℝ) ≤ p0.t0 ∧
      ((initState p0).i = 0 ∧ (initState p0).interval = 0 ∧
        (initState p0).interval ≤ (initState p0).t ∧
        ∀ s', step (mkCfg p0) (initState p0) = .ok s' → s'.i = 1) :=
  ⟨by norm_num [p0], C10_first_step_emits p0 (by norm_num [p0])⟩


/-! ### Cube-root comparison helpers -/

lemma lt_rpow_third {a b : ℝ} (ha : 0 ≤ a) (h : a ^ (3 : ℕ) < b) :
    a < b ^ ((1 : ℝ) / 3) := by
  have h2 : (a ^ (3 : ℕ)) ^ ((1 : ℝ) / 3) < b ^ ((1 : ℝ) / 3) :=
    Real.rpow_lt_rpow (by positivity) h (by norm_num)
  calc a = (a ^ (3 : ℕ)) ^ ((1 : ℝ) / 3) := by
        rw [← Real.rpow_natCast a 3, ← Real.rpow_mul ha]
        norm_num
    _ < b ^ ((1 : ℝ) / 3) := h2

lemma rpow_third_lt {b c : ℝ} (hb : 0 ≤ b) (hc : 0 ≤ c) (h : b < c ^ (3 : ℕ)) :
    b ^ ((1 : ℝ) / 3) < c := by
  have h2 : b ^ ((1 : ℝ) / 3) < (c ^ (3 : ℕ)) ^ ((1 : ℝ) / 3) :=
    Real.rpow_lt_rpow hb h (by norm_num)
  calc b ^ ((1 : ℝ) / 3) < (c ^ (3 : ℕ)) ^ ((1 : ℝ) / 3) := h2
    _ = c := by
        rw [← Real.rpow_natCast c 3, ← Real.rpow_mul hc]
        norm_num

/-! ### Numeric facts about the default configuration -/

lemma seventeen_div_8pi_bounds :
    (0.658503 : ℝ) < 17 / (8 * Real.pi) ∧ (17 : ℝ) / (8 * Real.pi) < 0.681472 := by
  have hπu : Real.pi < 3.141593 := Real.pi_lt_3141593
  have hπl : (3.141592 : ℝ) < Real.pi := Real.pi_gt_3141592
  have h8 : (0 : ℝ) < 8 * Real.pi := by positivity
  constructor
  · rw [lt_div_iff h8]
    nlinarith
  · rw [div_lt_iff h8]
    nlinarith

/-- The physical termination time for `k = 0, e0 = rho0 = 1` lies in
`(0.87, 0.88)`. -/
lemma tphys_val_bounds :
    (0.87 : ℝ) < ((17 : ℝ) / (8 * Real.pi)) ^ ((1 : ℝ) / 3) ∧
      ((17 : ℝ) / (8 * Real.pi)) ^ ((1 : ℝ) / 3) < 0.88 := by
  obtain ⟨hl, hu⟩ := seventeen_div_8pi_bounds
  constructor
  · exact lt_rpow_third (by norm_num) (by norm_num; linarith)
  · refine rpow_third_lt (by positivity) (by norm_num) ?_
    norm_num
    linarith

/-! ### Small grids -/

/-- `np.geomspace(a, b, 1)` is `[a]` (in the model, via `0/0 = 0`). -/
lemma geomspace_one (a b : ℝ) : geomspace a b 1 = [a] := by
  have h1 : List.range 1 = [0] := rfl
  simp [geomspace, h1]

/-- The nearest-index scan on a one-element grid returns index 0. -/
lemma find_nearest_idx_singleton (x v : ℝ) : find_nearest_idx [x] v = 0 := by
  have h1 : List.range 1 = [0] := rfl
  simp [find_nearest_idx, h1]

/-! ### The run at the default parameters with a single zone -/

/-- Default parameters except `nzones = 1`. -/
noncomputable def p1 : Params :=
  { e0 := 1, rho0 := 1, t0 := 0.01, nzones := 1, rmax := 1, bmk_m := 3,
    k := 0, tinterval := 0.1 }

lemma tphys_p1 : (mkCfg p1).tphysical = ((17 : ℝ) / (8 * Real.pi)) ^ ((1 : ℝ) / 3) := by
  show ((17 - 4 * p1.k) / (8 * Real.pi)) ^ ((1 : ℝ) / 3) *
      (p1.e0 / p1.rho0) ^ ((1 : ℝ) / 3) = _
  norm_num [p1, Real.one_rpow]

lemma mkCfg_p1_r : (mkCfg p1).r = [r0_of p1] := by
  show geomspace (r0_of p1) p1.rmax p1.nzones = _
  rw [show p1.nzones = 1 from rfl]
  exact geomspace_one _ _

lemma rshock_idx_p1 : (initState p1).rshock_idx = 0 := by
  show find_nearest_idx (geomspace (r0_of p1) p1.rmax p1.nzones) (r0_of p1) = 0
  rw [show p1.nzones = 1 from rfl, geomspace_one]
  exact find_nearest_idx_singleton _ _

/-- On the one-zone grid the boundary correction rewrites the whole (single
entry) similarity profile to `[1]`. -/
lemma chi_array_p1 : chi_array (mkCfg p1) (initState p1) = [1] := by
  unfold chi_array
  rw [mkCfg_p1_r, rshock_idx_p1]
  simp

lemma upstream_p1 : upstream_lookup (chi_array (mkCfg p1) (initState p1)) = none := by
  rw [chi_array_p1]
  simp [upstream_lookup]

lemma guard_p1 : (initState p1).t < (mkCfg p1).tphysical := by
  rw [tphys_p1]
  have h := tphys_val_bounds.1
  show (0.01 : ℝ) < _
  linarith

/-- With `nzones = 1` the very first iteration exhausts the upstream lookup
and the run aborts with the IndexError. -/
lemma runMain_p1 : runMain p1 = .error .indexError := by
  show loopRun (mkCfg p1) p1.nzones (initState p1) = _
  rw [show p1.nzones = 1 from rfl]
  have hdef : loopRun (mkCfg p1) 1 (initState p1) =
      if (initState p1).t < (mkCfg p1).tphysical then
        (step (mkCfg p1) (initState p1)).bind (loopRun (mkCfg p1) 0)
      else .ok (initState p1) := rfl
  rw [hdef, if_pos guard_p1, step_eq_error _ _ upstream_p1]
  rfl

/-- C1 counterexample: at the default parameters with `nzones = 1`, the
upstream lookup finds no point with `χ < 1` on the first iteration (the
forced boundary value is the whole profile), and the run ends in the
`IndexError` — no final FluidState is yielded.  The lookup failure is an
uncaught exception, not a graceful termination trigger. -/
theorem C1_cex_exhaustion_is_abort :
    upstream_lookup (chi_array (mkCfg p1) (initState p1)) = none ∧
      runMain p1 = .error .indexError ∧ ∀ s, runMain p1 ≠ .ok s := by
  refine ⟨upstream_p1, runMain_p1, ?_⟩
  intro s hs
  rw [runMain_p1] at hs
  cases hs

/-- C4 counterexample: the claim quantifies over every positive `nzones`,
but at `nzones = 1` (defaults otherwise) the evolution loop never reaches a
normal guard exit: the run aborts with an IndexError on the first iteration,
so there is no final state at all. -/
theorem C4_cex_nzones_one : ¬ ∃ s, runMain p1 = .ok s := by
  rintro ⟨s, hs⟩
  rw [runMain_p1] at hs
  cases hs


/-! ### The default run: numeric groundwork -/

lemma tphys_p0 : (mkCfg p0).tphysical = ((17 : ℝ) / (8 * Real.pi)) ^ ((1 : ℝ) / 3) := by
  show ((17 - 4 * p0.k) / (8 * Real.pi)) ^ ((1 : ℝ) / 3) *
      (p0.e0 / p0.rho0) ^ ((1 : ℝ) / 3) = _
  norm_num [p0, Real.one_rpow]

lemma ell0_p0 : ell0_of p0 = 1 := by
  show (p0.e0 / p0.rho0) ^ ((1 : ℝ) / 3) = 1
  norm_num [p0, Real.one_rpow]

lemma hundred_rpow : (100 : ℝ) ^ ((3 : ℝ) / 2) = 1000 := by
  rw [show (100 : ℝ) = (10 : ℝ) ^ (2 : ℕ) by norm_num,
    ← Real.rpow_natCast (10 : ℝ) 2, ← Real.rpow_mul (by norm_num : (0:ℝ) ≤ 10),
    show ((2 : ℕ) : ℝ) * ((3 : ℝ) / 2) = ((3 : ℕ) : ℝ) by push_cast; ring,
    Real.rpow_natCast]
  norm_num

lemma gamma0_p0 : gamma_shock0_of p0 = Real.sqrt (17 / (8 * Real.pi)) * 1000 := by
  show calc_shock_lorentz_gamma (ell0_of p0) p0.t0 p0.k = _
  rw [ell0_p0]
  unfold calc_shock_lorentz_gamma
  rw [show ((1 : ℝ) / p0.t0) = 100 by norm_num [p0], hundred_rpow,
    show ((17 - 4 * p0.k) / 8 / Real.pi) = 17 / (8 * Real.pi) by
      norm_num [p0]; ring,
    show ((0.5 : ℝ)) = 1 / 2 by norm_num, ← Real.sqrt_eq_rpow]

lemma gamma0_sq_p0 : gamma_shock0_of p0 ^ 2 = 17 / (8 * Real.pi) * 1000000 := by
  rw [gamma0_p0, mul_pow, Real.sq_sqrt (by positivity)]
  norm_num

lemma r0_p0 : r0_of p0 = 0.01 * (1 - Real.pi / 17000000) := by
  have hπ : Real.pi ≠ 0 := Real.pi_pos.ne'
  show calc_shock_radius (gamma_shock0_of p0) p0.t0 p0.bmk_m = _
  unfold calc_shock_radius
  rw [Real.rpow_neg_one, gamma0_sq_p0,
    show (p0.t0 : ℝ) = 0.01 from rfl, show (p0.bmk_m : ℝ) = 3 from rfl]
  have h8 : 2 * ((3 : ℝ) + 1) * (17 / (8 * Real.pi) * 1000000) = 17000000 / Real.pi := by
    field_simp
    ring
  rw [h8]
  congr 1
  rw [inv_div]

lemma r0_p0_bounds : (0.0099 : ℝ) < r0_of p0 ∧ r0_of p0 < 0.01 := by
  have hπl : (3 : ℝ) < Real.pi := Real.pi_gt_three
  have hπu : Real.pi < 3.141593 := Real.pi_lt_3141593
  rw [r0_p0]
  constructor
  · nlinarith
  · nlinarith

lemma dt_p0_eq : (mkCfg p0).dt = (1 - r0_of p0) / 4096 := by
  show (p0.rmax - r0_of p0) / ((p0.nzones : ℕ) : ℝ) = _
  norm_num [p0]

lemma dt_p0_bounds : (0.000241 : ℝ) < (mkCfg p0).dt ∧ (mkCfg p0).dt < 0.000242 := by
  obtain ⟨hl, hu⟩ := r0_p0_bounds
  rw [dt_p0_eq]
  constructor
  · rw [lt_div_iff (by norm_num : (0:ℝ) < 4096)]
    linarith
  · rw [div_lt_iff (by norm_num : (0:ℝ) < 4096)]
    linarith

/-! ### Grid access lemmas -/

lemma getD_mem {l : List ℝ} {i : ℕ} (h : i < l.length) : l.getD i 0 ∈ l := by
  rw [List.getD_eq_getElem?_getD, List.getElem?_eq_getElem h]
  exact List.getElem_mem h

lemma getD_set_ne {l : List ℝ} {i j : ℕ} (h : i ≠ j) (v : ℝ) :
    (l.set i v).getD j 0 = l.getD j 0 := by
  rw [List.getD_eq_getElem?_getD, List.getD_eq_getElem?_getD, List.getElem?_set_ne h]

lemma getD_map_lt {α β : Type _} (f : α → β) (l : List α) (i : ℕ) (c : α) (d : β)
    (h : i < l.length) : (l.map f).getD i d = f (l.getD i c) := by
  rw [List.getD_eq_getElem?_getD, List.getD_eq_getElem?_getD, List.getElem?_map,
    List.getElem?_eq_getElem h]
  simp

lemma geomspace_length (a b : ℝ) (n : ℕ) : (geomspace a b n).length = n := by
  unfold geomspace
  rw [List.length_map, List.length_range]

lemma geomspace_getD (a b : ℝ) (n i : ℕ) (h : i < n) :
    (geomspace a b n).getD i 0 = a * (b / a) ^ ((i : ℝ) / ((n : ℝ) - 1)) := by
  unfold geomspace
  rw [getD_map_lt _ _ _ 0 0 (by rw [List.length_range]; exact h)]
  have hget : (List.range n).getD i 0 = i := by
    rw [List.getD_eq_getElem?_getD, List.getElem?_range h]
    rfl
  rw [hget]

lemma r_p0_length : (mkCfg p0).r.length = 4096 := by
  show (geomspace (r0_of p0) p0.rmax p0.nzones).length = 4096
  rw [geomspace_length]
  rfl

lemma r_p0_last : (mkCfg p0).r.getD 4095 0 = 1 := by
  have hr0 : (0 : ℝ) < r0_of p0 := lt_trans (by norm_num) r0_p0_bounds.1
  show (geomspace (r0_of p0) p0.rmax p0.nzones).getD 4095 0 = 1
  rw [show p0.rmax = 1 from rfl, show p0.nzones = 4096 from rfl,
    geomspace_getD _ _ _ _ (by norm_num),
    show ((4095 : ℕ) : ℝ) / (((4096 : ℕ) : ℝ) - 1) = 1 by norm_num,
    Real.rpow_one]
  field_simp

lemma r_p0_4094 : (0.88 : ℝ) < (mkCfg p0).r.getD 4094 0 := by
  have hr0 : (0 : ℝ) < r0_of p0 := lt_trans (by norm_num) r0_p0_bounds.1
  show (0.88 : ℝ) < (geomspace (r0_of p0) p0.rmax p0.nzones).getD 4094 0
  rw [show p0.rmax = 1 from rfl, show p0.nzones = 4096 from rfl,
    geomspace_getD _ _ _ _ (by norm_num)]
  have hkey : r0_of p0 * (1 / r0_of p0) ^ (((4094 : ℕ) : ℝ) / (((4096 : ℕ) : ℝ) - 1)) =
      r0_of p0 ^ ((1 : ℝ) / 4095) := by
    rw [show ((1 : ℝ) / 4095) = 1 + -(((4094 : ℕ) : ℝ) / (((4096 : ℕ) : ℝ) - 1)) by
        push_cast; ring,
      Real.rpow_add hr0, Real.rpow_one, Real.rpow_neg hr0.le,
      ← Real.inv_rpow hr0.le, one_div]
  rw [hkey]
  have h40 : ((0.88 : ℝ)) ^ (4095 : ℕ) < r0_of p0 := by
    have h1 : ((0.88 : ℝ)) ^ (4095 : ℕ) ≤ ((0.88 : ℝ)) ^ (40 : ℕ) :=
      pow_le_pow_of_le_one (by norm_num) (by norm_num) (by norm_num)
    have h2 : ((0.88 : ℝ)) ^ (40 : ℕ) < 0.0099 := by norm_num
    linarith [r0_p0_bounds.1]
  have h3 : (((0.88 : ℝ)) ^ (4095 : ℕ)) ^ ((1 : ℝ) / 4095) <
      (r0_of p0) ^ ((1 : ℝ) / 4095) :=
    Real.rpow_lt_rpow (by positivity) h40 (by norm_num)
  calc (0.88 : ℝ) = (((0.88 : ℝ)) ^ (4095 : ℕ)) ^ ((1 : ℝ) / 4095) := by
        rw [← Real.rpow_natCast (0.88 : ℝ) 4095, ← Real.rpow_mul (by norm_num)]
        norm_num
    _ < (r0_of p0) ^ ((1 : ℝ) / 4095) := h3

/-! ### The upstream lookup always succeeds on the default grid -/

/-- The similarity variable is negative beyond the shock radius whenever the
grid point lies outside the current time horizon. -/
lemma calc_chi_neg {l t r m k : ℝ} (ht : 0 < t) (hr : t < r) (hm : 0 ≤ m + 1) :
    calc_chi l r t m k < 0 := by
  unfold calc_chi
  have hA : 0 < 1 + 2 * (m + 1) * calc_shock_lorentz_gamma l t k ^ 2 := by
    nlinarith [sq_nonneg (calc_shock_lorentz_gamma l t k)]
  have hfac : 1 - r / t < 0 := by
    rw [sub_neg]
    rw [lt_div_iff ht]
    linarith
  exact mul_neg_of_pos_of_neg hA hfac

/-- On the default grid, while `0 < t < 0.88` at least one of the last two
grid points carries `χ < 1` after the boundary correction (the correction
rewrites only one index), so the upstream search succeeds. -/
lemma p0_step_some (s : LoopState) (ht_pos : 0 < s.t) (ht_lt : s.t < 0.88) :
    ∃ u, upstream_lookup (chi_array (mkCfg p0) s) = some u := by
  cases hcase : upstream_lookup (chi_array (mkCfg p0) s) with
  | some u => exact ⟨u, rfl⟩
  | none =>
    exfalso
    have hall := (upstream_lookup_eq_none_iff _).1 hcase
    have hchilen : (chi_array (mkCfg p0) s).length = 4096 := by
      rw [chi_array_length, r_p0_length]
    have hm3 : (mkCfg p0).bmk_m = 3 := rfl
    have hk0 : (mkCfg p0).k = 0 := rfl
    by_cases hj : s.rshock_idx = 4094
    · -- the last grid point keeps `χ = A(1 - 1/t) < 0`
      have hval : (chi_array (mkCfg p0) s).getD 4095 0 =
          calc_chi s.ell ((mkCfg p0).r.getD 4095 0) s.t (mkCfg p0).bmk_m (mkCfg p0).k := by
        unfold chi_array
        rw [getD_set_ne (by omega) 1,
          getD_map_lt _ _ _ 0 0 (by rw [r_p0_length]; norm_num)]
      have hneg : calc_chi s.ell ((mkCfg p0).r.getD 4095 0) s.t (mkCfg p0).bmk_m
          (mkCfg p0).k < 0 := by
        rw [r_p0_last, hm3, hk0]
        exact calc_chi_neg ht_pos (by linarith) (by norm_num)
      have hmem : (chi_array (mkCfg p0) s).getD 4095 0 ∈ chi_array (mkCfg p0) s :=
        getD_mem (by rw [hchilen]; norm_num)
      have h1 := hall _ hmem
      rw [hval] at h1
      linarith
    · -- grid point 4094 keeps `χ = A(1 - r/t) < 0` since `r > 0.88 > t`
      have hval : (chi_array (mkCfg p0) s).getD 4094 0 =
          calc_chi s.ell ((mkCfg p0).r.getD 4094 0) s.t (mkCfg p0).bmk_m (mkCfg p0).k := by
        unfold chi_array
        rw [getD_set_ne (by omega) 1,
          getD_map_lt _ _ _ 0 0 (by rw [r_p0_length]; norm_num)]
      have hneg : calc_chi s.ell ((mkCfg p0).r.getD 4094 0) s.t (mkCfg p0).bmk_m
          (mkCfg p0).k < 0 := by
        rw [hm3, hk0]
        exact calc_chi_neg ht_pos (lt_trans ht_lt r_p0_4094) (by norm_num)
      have hmem : (chi_array (mkCfg p0) s).getD 4094 0 ∈ chi_array (mkCfg p0) s :=
        getD_mem (by rw [hchilen]; norm_num)
      have h1 := hall _ hmem
      rw [hval] at h1
      linarith

/-! ### The loop invariant for the default run -/

lemma t0_p0 : p0.t0 = 0.01 := rfl

lemma T_p0 : p0.tinterval = 0.1 := rfl

/-- Invariant after `n` completed iterations of the default run: exact time
`t = t0 + n·dt`, iteration count recorded in `times`, the checkpoint
boundary in lockstep with the counter, and the counter characterized by the
floor of the previous time over the cadence. -/
def Inv0 (n : ℕ) (s : LoopState) : Prop :=
  s.t = p0.t0 + n * (mkCfg p0).dt ∧
  s.times.length = n ∧
  s.interval = p0.tinterval * s.i ∧
  (n = 0 → s.i = 0) ∧
  (1 ≤ n → s.i = ⌊(p0.t0 + ((n : ℝ) - 1) * (mkCfg p0).dt) / p0.tinterval⌋₊ + 1)

lemma Inv0_init : Inv0 0 (initState p0) := by
  refine ⟨?_, rfl, ?_, fun _ => rfl, fun h => absurd h (by norm_num)⟩
  · show p0.t0 = p0.t0 + ((0 : ℕ) : ℝ) * (mkCfg p0).dt
    push_cast
    ring
  · show (0 : ℝ) = p0.tinterval * (((initState p0).i : ℕ) : ℝ)
    show (0 : ℝ) = p0.tinterval * ((0 : ℕ) : ℝ)
    push_cast
    ring

lemma step_eq_ok_of_some (cfg : Cfg) (s : LoopState) (u : ℕ)
    (hu : upstream_lookup (chi_array cfg s) = some u) :
    ∃ s', step cfg s = .ok s' := by
  cases hs : step cfg s with
  | ok s' => exact ⟨s', rfl⟩
  | error e =>
    simp only [step, hu] at hs
    cases hs

lemma p0_step_ok {n : ℕ} {s : LoopState} (hInv : Inv0 n s)
    (hguard : s.t < (mkCfg p0).tphysical) :
    ∃ s', step (mkCfg p0) s = .ok s' := by
  have ht_pos : 0 < s.t := by
    obtain ⟨ht, -⟩ := hInv
    rw [ht, t0_p0]
    have h1 : (0 : ℝ) ≤ (n : ℝ) * (mkCfg p0).dt :=
      mul_nonneg (Nat.cast_nonneg n) (by linarith [dt_p0_bounds.1])
    linarith
  have ht_lt : s.t < 0.88 :=
    lt_of_lt_of_le hguard (by rw [tphys_p0]; exact tphys_val_bounds.2.le)
  obtain ⟨u, hu⟩ := p0_step_some s ht_pos ht_lt
  exact step_eq_ok_of_some _ _ u hu

/-- The invariant is preserved by each guarded, successful step. -/
lemma Inv0_step {n : ℕ} {s s' : LoopState} (hInv : Inv0 n s)
    (hok : step (mkCfg p0) s = .ok s') : Inv0 (n + 1) s' := by
  obtain ⟨hdtl, hdtu⟩ := dt_p0_bounds
  have hdt_pos : (0 : ℝ) < (mkCfg p0).dt := by linarith
  have hTpos : (0 : ℝ) < p0.tinterval := by rw [T_p0]; norm_num
  obtain ⟨ht, htimes, hint, hi0, hiF⟩ := hInv
  obtain ⟨-, -, -, ht', hi', hint', htimes', -⟩ := step_ok_fields _ _ _ hok
  have htpos : (0 : ℝ) ≤ s.t := by
    rw [ht, t0_p0]
    have h1 : (0 : ℝ) ≤ (n : ℝ) * (mkCfg p0).dt :=
      mul_nonneg (Nat.cast_nonneg n) hdt_pos.le
    linarith
  refine ⟨?_, ?_, ?_, ?_, ?_⟩
  · rw [ht', ht]
    push_cast
    ring
  · rw [htimes', List.length_append, htimes]
    rfl
  · rw [hint', hi']
    have hTeq : (mkCfg p0).tinterval = p0.tinterval := rfl
    by_cases hemit : s.interval ≤ s.t
    · rw [if_pos hemit, if_pos hemit, hint, hTeq]
      push_cast
      ring
    · rw [if_neg hemit, if_neg hemit, hint]
  · omega
  · intro _hn1
    rw [hi']
    have hteq : p0.t0 + (((n + 1 : ℕ) : ℝ) - 1) * (mkCfg p0).dt = s.t := by
      rw [ht]
      push_cast
      ring
    rw [hteq]
    rcases Nat.eq_zero_or_pos n with hn | hn
    · subst hn
      have hi_z : s.i = 0 := hi0 rfl
      have hemit : s.interval ≤ s.t := by
        rw [hint, hi_z]
        push_cast
        linarith
      rw [if_pos hemit, hi_z]
      have hst : s.t = 0.01 := by
        rw [ht, t0_p0]
        push_cast
        ring
      have hfl : ⌊s.t / p0.tinterval⌋₊ = 0 := by
        apply Nat.floor_eq_zero.2
        rw [hst, T_p0]
        norm_num
      omega
    · have hiF' := hiF hn
      have hn1 : (1 : ℝ) ≤ (n : ℝ) := by exact_mod_cast hn
      have hprev_lt : (p0.t0 + ((n : ℝ) - 1) * (mkCfg p0).dt) / p0.tinterval <
          (⌊(p0.t0 + ((n : ℝ) - 1) * (mkCfg p0).dt) / p0.tinterval⌋₊ : ℝ) + 1 :=
        Nat.lt_floor_add_one _
      have hst_split : s.t = (p0.t0 + ((n : ℝ) - 1) * (mkCfg p0).dt) + (mkCfg p0).dt := by
        rw [ht]
        ring
      by_cases hemit : s.interval ≤ s.t
      · rw [if_pos hemit, hiF']
        have hintval : s.interval = p0.tinterval *
            ((⌊(p0.t0 + ((n : ℝ) - 1) * (mkCfg p0).dt) / p0.tinterval⌋₊ : ℝ) + 1) := by
          rw [hint, hiF']
          push_cast
          ring
        have hge : (⌊(p0.t0 + ((n : ℝ) - 1) * (mkCfg p0).dt) / p0.tinterval⌋₊ : ℝ) + 1 ≤
            s.t / p0.tinterval := by
          rw [le_div_iff hTpos]
          nlinarith [hemit, hintval]
        have hlt2 : s.t / p0.tinterval <
            (⌊(p0.t0 + ((n : ℝ) - 1) * (mkCfg p0).dt) / p0.tinterval⌋₊ : ℝ) + 2 := by
          rw [div_lt_iff hTpos]
          rw [div_lt_iff hTpos] at hprev_lt
          have hdT : (mkCfg p0).dt < p0.tinterval := by
            rw [T_p0]
            linarith
          rw [hst_split]
          nlinarith
        have h1 : ⌊(p0.t0 + ((n : ℝ) - 1) * (mkCfg p0).dt) / p0.tinterval⌋₊ + 1 ≤
            ⌊s.t / p0.tinterval⌋₊ :=
          Nat.le_floor (by push_cast; linarith)
        have h2 : ⌊s.t / p0.tinterval⌋₊ <
            ⌊(p0.t0 + ((n : ℝ) - 1) * (mkCfg p0).dt) / p0.tinterval⌋₊ + 2 := by
          rw [Nat.floor_lt (div_nonneg htpos hTpos.le)]
          push_cast
          linarith
        omega
      · rw [if_neg hemit, hiF']
        push_neg at hemit
        have hintval : s.interval = p0.tinterval *
            ((⌊(p0.t0 + ((n : ℝ) - 1) * (mkCfg p0).dt) / p0.tinterval⌋₊ : ℝ) + 1) := by
          rw [hint, hiF']
          push_cast
          ring
        have hlt2 : s.t / p0.tinterval <
            (⌊(p0.t0 + ((n : ℝ) - 1) * (mkCfg p0).dt) / p0.tinterval⌋₊ : ℝ) + 1 := by
          rw [div_lt_iff hTpos]
          nlinarith [hemit, hintval]
        have hprev_nonneg : (0 : ℝ) ≤ p0.t0 + ((n : ℝ) - 1) * (mkCfg p0).dt := by
          rw [t0_p0]
          nlinarith
        have hge : ⌊(p0.t0 + ((n : ℝ) - 1) * (mkCfg p0).dt) / p0.tinterval⌋₊ ≤
            ⌊s.t / p0.tinterval⌋₊ := by
          apply Nat.floor_le_floor
          gcongr
          linarith [hst_split, hdt_pos]
        have h2 : ⌊s.t / p0.tinterval⌋₊ <
            ⌊(p0.t0 + ((n : ℝ) - 1) * (mkCfg p0).dt) / p0.tinterval⌋₊ + 1 := by
          rw [Nat.floor_lt (div_nonneg htpos hTpos.le)]
          push_cast
          linarith
        omega

/-- Master run lemma for the default parameters: from any invariant state
with remaining budget `fuel`, `n + fuel = 4096`, the loop reaches a normal
guard exit (`tphysical ≤ t`) with the invariant intact, within the budget;
and unless no iteration ran at all, the last executed iteration still
satisfied the guard. -/
lemma p0_run_master : ∀ (fuel n : ℕ) (s : LoopState), Inv0 n s → n + fuel = 4096 →
    ∃ (s' : LoopState) (m : ℕ), loopRun (mkCfg p0) fuel s = .ok s' ∧ Inv0 m s' ∧
      m ≤ 4096 ∧ (mkCfg p0).tphysical ≤ s'.t ∧
      ((s' = s ∧ m = n) ∨
        (1 ≤ m ∧ p0.t0 + ((m : ℝ) - 1) * (mkCfg p0).dt < (mkCfg p0).tphysical)) := by
  intro fuel
  induction fuel with
  | zero =>
    intro n s hInv hfn
    have hn : n = 4096 := by omega
    have hts : (mkCfg p0).tphysical ≤ s.t := by
      subst hn
      obtain ⟨ht, -⟩ := hInv
      have hcancel : ((4096 : ℕ) : ℝ) * (mkCfg p0).dt = 1 - r0_of p0 := by
        rw [dt_p0_eq]
        push_cast
        ring
      have hr0 := r0_p0_bounds.2
      have htp : (mkCfg p0).tphysical < 0.88 := by
        rw [tphys_p0]
        exact tphys_val_bounds.2
      rw [ht, t0_p0, hcancel]
      linarith
    exact ⟨s, n, rfl, hInv, by omega, hts, Or.inl ⟨rfl, rfl⟩⟩
  | succ f ih =>
    intro n s hInv hfn
    by_cases hguard : s.t < (mkCfg p0).tphysical
    · obtain ⟨s1, hok⟩ := p0_step_ok hInv hguard
      have hInv1 := Inv0_step hInv hok
      obtain ⟨s'', m, hrun, hI, hm, hts, hdisj⟩ := ih (n + 1) s1 hInv1 (by omega)
      refine ⟨s'', m, ?_, hI, hm, hts, ?_⟩
      · have hunf : loopRun (mkCfg p0) (f + 1) s =
            if s.t < (mkCfg p0).tphysical then
              (step (mkCfg p0) s).bind (loopRun (mkCfg p0) f) else .ok s := rfl
        rw [hunf, if_pos hguard, hok]
        exact hrun
      · right
        rcases hdisj with ⟨heq, hmeq⟩ | h2
        · refine ⟨by omega, ?_⟩
          obtain ⟨ht, -⟩ := hInv
          have hteq : p0.t0 + ((m : ℝ) - 1) * (mkCfg p0).dt = s.t := by
            rw [hmeq, ht]
            push_cast
            ring
          rw [hteq]
          exact hguard
        · exact h2
    · refine ⟨s, n, ?_, hInv, by omega, le_of_not_lt hguard, Or.inl ⟨rfl, rfl⟩⟩
      have hunf : loopRun (mkCfg p0) (f + 1) s =
          if s.t < (mkCfg p0).tphysical then
            (step (mkCfg p0) s).bind (loopRun (mkCfg p0) f) else .ok s := rfl
      rw [hunf, if_neg hguard]

/-! ### Claim C4 -/

/-- C4 (amended): for the spec scenario — default parameters `k = 0, m = 3,
e0 = 1, rho0 = 1, t0 = 0.01, rmax = 1` with `nzones = 4096` — the evolution
loop terminates normally (guard exit): the run yields a final state with
`t ≥ t_physical = (17/(8π))^(1/3)` after at most
`ceil((rmax−r0)/dt) = nzones` iterations.  (The original "any positive
nzones" fails: see the `nzones = 1` counterexample.) -/
theorem C4_default_run_terminates :
    ∃ s, runMain p0 = .ok s ∧ (mkCfg p0).tphysical ≤ s.t ∧
      s.times.length ≤ p0.nzones := by
  obtain ⟨s, m, hrun, hI, hm, hts, -⟩ :=
    p0_run_master 4096 0 (initState p0) Inv0_init (by omega)
  refine ⟨s, ?_, hts, ?_⟩
  · show loopRun (mkCfg p0) p0.nzones (initState p0) = _
    rw [show p0.nzones = 4096 from rfl]
    exact hrun
  · rw [hI.2.1]
    exact hm

/-! ### Claim C2 -/

/-- C2: in the `nzones = 4096` scenario with default parameters, the run
terminates normally and the total number of checkpoints emitted equals
`⌊(t_physical − t0)/tinterval⌋ + 1`, which is 9 (checkpoint indices 0–8,
one per crossed multiple `0, 0.1, …, 0.8` of `tinterval`). -/
theorem C2_checkpoint_count :
    ∃ s, runMain p0 = .ok s ∧
      s.i = ⌊((mkCfg p0).tphysical - p0.t0) / p0.tinterval⌋₊ + 1 ∧ s.i = 9 := by
  obtain ⟨s, m, hrun, hI, hm, hts, hdisj⟩ :=
    p0_run_master 4096 0 (initState p0) Inv0_init (by omega)
  have htpl : (0.87 : ℝ) < (mkCfg p0).tphysical := by
    rw [tphys_p0]
    exact tphys_val_bounds.1
  have htpu : (mkCfg p0).tphysical < 0.88 := by
    rw [tphys_p0]
    exact tphys_val_bounds.2
  obtain ⟨hdtl, hdtu⟩ := dt_p0_bounds
  rcases hdisj with ⟨heq, hmeq⟩ | ⟨hm1, hlast⟩
  · exfalso
    rw [heq] at hts
    have hival : (initState p0).t = (0.01 : ℝ) := rfl
    rw [hival] at hts
    linarith
  · obtain ⟨ht, htimes, hint, hi0, hiF⟩ := hI
    have hi9 := hiF hm1
    have hplus : p0.t0 + (m : ℝ) * (mkCfg p0).dt =
        (p0.t0 + ((m : ℝ) - 1) * (mkCfg p0).dt) + (mkCfg p0).dt := by
      ring
    have hts' : (mkCfg p0).tphysical ≤ p0.t0 + (m : ℝ) * (mkCfg p0).dt := by
      rw [← ht]
      exact hts
    have hx_ge : (0.8 : ℝ) ≤ p0.t0 + ((m : ℝ) - 1) * (mkCfg p0).dt := by
      nlinarith
    have hx_ub : p0.t0 + ((m : ℝ) - 1) * (mkCfg p0).dt < 0.9 := by
      nlinarith
    have hfl1 : ⌊(p0.t0 + ((m : ℝ) - 1) * (mkCfg p0).dt) / p0.tinterval⌋₊ = 8 := by
      rw [T_p0, Nat.floor_eq_iff (div_nonneg (by linarith) (by norm_num))]
      constructor
      · rw [le_div_iff (by norm_num : (0 : ℝ) < 0.1)]
        push_cast
        linarith
      · rw [div_lt_iff (by norm_num : (0 : ℝ) < 0.1)]
        push_cast
        linarith
    have hfl2 : ⌊((mkCfg p0).tphysical - p0.t0) / p0.tinterval⌋₊ = 8 := by
      rw [T_p0, t0_p0, Nat.floor_eq_iff (div_nonneg (by linarith) (by norm_num))]
      constructor
      · rw [le_div_iff (by norm_num : (0 : ℝ) < 0.1)]
        push_cast
        linarith
      · rw [div_lt_iff (by norm_num : (0 : ℝ) < 0.1)]
        push_cast
        linarith
    refine ⟨s, ?_, ?_, ?_⟩
    · show loopRun (mkCfg p0) p0.nzones (initState p0) = _
      rw [show p0.nzones = 4096 from rfl]
      exact hrun
    · rw [hi9, hfl1, hfl2]
    · rw [hi9, hfl1]
end BMK
